import Mathlib

/-!
# Verification of the flashlight-tensor matrix layer

Shallow embedding of `src/cpu/subtypes/matrix.rs` from the
flashlight-tensor repository, together with proofs and refutations of
the specified properties of this layer.

A tensor is a flat row-major buffer plus a shape descriptor.  The
matrix layer derives 2-D sub-views (`matrix`, `matrix_row`,
`matrix_col`), transposes, multiplies, reduces (row/column sum and
product) and renders rank-2 tensors.

The Rust code can panic (out-of-bounds indexing and slicing,
`.unwrap()` on `None`), so each operation is embedded as a function
into `Panic (Option _)`: `Panic.panicked` models a Rust panic, `.ok
none` models the "not applicable" `None` return, `.ok (some t)` a
successful result.  External collaborators that are not part of this
layer (`from_data`, `value`, `set_shape`, `dot_product`) are modelled
from the spec, as noted on each definition.

Machine integers (`u32`, `usize`) are modelled as `Nat`; the only
place where wrap-around semantics could be observed is the
`self_dims - selector_dims != 2` rank guard of `matrix`, which under
release-build wrapping is equivalent to `self_dims ≠ selector_dims + 2`
for any realistic lengths, and is rendered that way.
-/

set_option maxHeartbeats 1000000

/-- Result of running a piece of Rust code that may panic. -/
inductive Panic (α : Type) where
  | panicked : Panic α
  | ok : α → Panic α
deriving DecidableEq

/-- Sequencing of possibly-panicking computations. -/
def Panic.bind {α β : Type} : Panic α → (α → Panic β) → Panic β
  | .panicked, _ => .panicked
  | .ok a, f => f a

/-- Rust `Option::unwrap`: panics on `None`. -/
def Option.unwrapP {α : Type} : Option α → Panic α
  | none => .panicked
  | some a => .ok a

/-- Rust `.unwrap()` applied to the `Option` result of a call that may
itself panic. -/
def Panic.unwrapOpt {α : Type} : Panic (Option α) → Panic α
  | .panicked => .panicked
  | .ok none => .panicked
  | .ok (some a) => .ok a

/-- A Rust `for` loop pushing one value per iteration into a fresh
vector, aborting the whole computation on panic. -/
def collectP {β γ : Type} : List β → (β → Panic γ) → Panic (List γ)
  | [], _ => .ok []
  | x :: xs, f =>
    match f x with
    | .panicked => .panicked
    | .ok y =>
      match collectP xs f with
      | .panicked => .panicked
      | .ok ys => .ok (y :: ys)

/-- A Rust `for` loop threading an accumulator, aborting on panic. -/
def foldlP {σ β : Type} (f : σ → β → Panic σ) : σ → List β → Panic σ
  | s, [] => .ok s
  | s, x :: xs =>
    match f s x with
    | .panicked => .panicked
    | .ok s2 => foldlP f s2 xs

/-- Rust slice expression `&v[b..e]`: panics unless `b ≤ e ≤ v.len()`. -/
def rustSlice {α : Type} (l : List α) (b e : Nat) : Option (List α) :=
  if b ≤ e ∧ e ≤ l.length then some ((l.drop b).take (e - b)) else none

/-- The strided gather of Rust
`for i in (start..data.len()).step_by(step)`, which visits
`start, start + step, …` while below `data.len()`.  `fuel` bounds the
number of iterations; `data.length + 1` is always enough when
`step ≥ 1`. -/
def strideGatherAux {α : Type} (data : List α) (step : Nat) :
    Nat → Nat → List α
  | 0, _ => []
  | fuel + 1, start =>
    match data.get? start with
    | none => []
    | some a => a :: strideGatherAux data step fuel (start + step)

/-- The data model: an immutable flat row-major buffer plus a shape
descriptor (outermost dimension first). -/
structure Tensor (α : Type) where
  data : List α
  shape : List Nat
deriving DecidableEq

namespace Tensor

variable {α : Type}

/-- Accessor `get_data`. -/
def get_data (t : Tensor α) : List α := t.data

/-- Accessor `get_shape`. -/
def get_shape (t : Tensor α) : List Nat := t.shape

/-- Modelled from the spec: the construction collaborator
`Tensor::from_data` (not part of this layer) — fails exactly when
`data.len() != product(shape)`. -/
def from_data (data : List α) (shape : List Nat) : Option (Tensor α) :=
  if data.length = shape.prod then some ⟨data, shape⟩ else none

/-- Modelled from the spec: the shape mutator `set_shape` (not part of
this layer) — reinterprets the shape without touching the buffer. -/
def set_shape (t : Tensor α) (s : List Nat) : Tensor α := ⟨t.data, s⟩

/-- Row-major flat index of a multi-index (outermost dimension first). -/
def flatIndex (shape idx : List Nat) : Nat :=
  (idx.zip shape).foldl (fun acc p => acc * p.2 + p.1) 0

/-- Modelled from the spec: the access collaborator `value` (not part
of this layer) — row-major element access, failing if the index has
the wrong rank or is out of bounds. -/
def value (t : Tensor α) (idx : List Nat) : Option α :=
  if idx.length = t.shape.length ∧ (idx.zip t.shape).all (fun p => p.1 < p.2) then
    t.data.get? (flatIndex t.shape idx)
  else none

/-- Embedding of `Tensor::matrix`: extract the trailing 2-D slab addressed by `pos`.
The Rust rank guard is `self_dims - selector_dims != 2` over `usize`,
rendered as `self_dims ≠ selector_dims + 2` (see the module comment).
The shape and selector indexing inside the loop is in bounds whenever
the guards have passed, so `getD` is exact there. -/
def matrix (t : Tensor α) (pos : List Nat) : Panic (Option (Tensor α)) :=
  if t.get_shape.length ≠ pos.length + 2 then .ok none
  else if (pos.zip t.get_shape).any (fun p => p.2 ≤ p.1) then .ok none
  else
    let st := (List.range pos.length).foldl
      (fun st i =>
        (st.1 + pos.getD (pos.length - 1 - i) 0 * st.2,
         st.2 * t.get_shape.getD (2 + i) 0))
      (0, t.get_shape.getD 1 0)
    let data_begin := st.1
    let tailShape := t.get_shape.drop (t.get_shape.length - 2)
    let prod := tailShape.prod
    match rustSlice t.get_data data_begin (data_begin + prod) with
    | none => .panicked
    | some d => .ok (from_data d tailShape)

/-- Embedding of `Tensor::matrix_row`: the `row`-th row of a rank-2 tensor. -/
def matrix_row (t : Tensor α) (row : Nat) : Panic (Option (Tensor α)) :=
  if t.get_shape.length ≠ 2 then .ok none
  else if t.get_shape.getD 0 0 ≤ row then .ok none
  else
    let row_size := t.get_shape.getD 1 0
    match rustSlice t.get_data (row * row_size) (row * row_size + row_size) with
    | none => .panicked
    | some d => .ok (from_data d [1, row_size])

/-- Embedding of `Tensor::matrix_col`: the `col`-th column of a rank-2 tensor,
gathered with stride `row_size`.  Rust `step_by` panics on step `0`,
which is unreachable here because `col < row_size`. -/
def matrix_col (t : Tensor α) (col : Nat) : Panic (Option (Tensor α)) :=
  if t.get_shape.length ≠ 2 then .ok none
  else if t.get_shape.getD 1 0 ≤ col then .ok none
  else
    let row_size := t.get_shape.getD 1 0
    if row_size = 0 then .panicked
    else .ok (from_data
      (strideGatherAux t.get_data row_size (t.get_data.length + 1) col)
      [t.get_shape.getD 0 0, 1])

/-- Embedding of `Tensor::matrix_transpose`: iterate output positions in row-major
order of the reversed shape (outer loop over original columns, inner
over original rows), unwrapping each `value` call. -/
def matrix_transpose (t : Tensor α) : Panic (Option (Tensor α)) :=
  if t.get_shape.length ≠ 2 then .ok none
  else
    let new_sizes := t.get_shape.reverse
    match collectP (List.range (t.get_shape.getD 1 0)) (fun collumn =>
      collectP (List.range (t.get_shape.getD 0 0)) (fun row =>
        (t.value [row, collumn]).unwrapP)) with
    | .panicked => .panicked
    | .ok cols =>
      match (from_data cols.flatten new_sizes).unwrapP with
      | .panicked => .panicked
      | .ok res => .ok (some res)

/-- Embedding of `Tensor::matrix_to_string` (the `Display`-bounded impl,
instantiated at `Int`): rows bracketed by vertical bars, values
comma-space separated, rows newline separated.  The `j != cols - 1`
and `i != rows - 1` separator tests are only evaluated inside their
loops, so the `u32` subtractions never underflow. -/
def matrix_to_string (t : Tensor Int) : Panic (Option String) :=
  if t.get_shape.length ≠ 2 then .ok none
  else
    let rows := t.get_shape.getD 0 0
    let cols := t.get_shape.getD 1 0
    match foldlP (fun s i =>
      Panic.bind (foldlP (fun s2 j =>
        Panic.bind (t.value [i, j]).unwrapP (fun v =>
          let s3 := s2 ++ toString v
          .ok (if j ≠ cols - 1 then s3 ++ ", " else s3))) (s ++ "|") (List.range cols))
        (fun s4 =>
          let s5 := s4 ++ "|"
          .ok (if i ≠ rows - 1 then s5 ++ "\n" else s5))) "" (List.range rows) with
    | .panicked => .panicked
    | .ok s => .ok (some s)

/-- The elementwise sum-of-products underlying the dot-product
collaborator. -/
def dotList (a b : List Int) : Int :=
  (a.zip b).foldl (fun acc p => acc + p.1 * p.2) 0

/-- Modelled from the spec: the rank-1 dot-product primitive
`dot_product` (not part of this layer) — fails exactly when the two
buffer lengths differ. -/
def dot_product (a b : Tensor Int) : Option Int :=
  if a.data.length = b.data.length then some (dotList a.data b.data) else none

/-- Embedding of `Tensor::matrix_mul` (the `f32`-specialized impl; the element type
is modelled as `Int`, on which every arithmetic step of the concrete
scenarios is exact): guard ranks and the inner dimensions, then for
every `(i, j)` extract row `i` and column `j`, collapse each to rank 1
and push their dot product. -/
def mulEntry (A B : Tensor Int) (i j : Nat) : Panic Int :=
  Panic.bind (A.matrix_row i).unwrapOpt (fun mat1_row =>
    Panic.bind (B.matrix_col j).unwrapOpt (fun mat2_col =>
      let r1 := mat1_row.set_shape [mat1_row.get_data.length]
      let c1 := mat2_col.set_shape [mat2_col.get_data.length]
      (dot_product r1 c1).unwrapP))

/-- The loop structure of `matrix_mul` around `mulEntry`. -/
def matrix_mul (A B : Tensor Int) : Panic (Option (Tensor Int)) :=
  if A.get_shape.length ≠ 2 then .ok none
  else if A.get_shape.length ≠ B.get_shape.length then .ok none
  else if A.get_shape.getD 1 0 ≠ B.get_shape.getD 0 0 then .ok none
  else
    match collectP (List.range (A.get_shape.getD 0 0)) (fun i =>
      collectP (List.range (B.get_shape.getD 1 0)) (fun j =>
        mulEntry A B i j)) with
    | .panicked => .panicked
    | .ok rows => .ok (from_data rows.flatten
        [A.get_shape.getD 0 0, B.get_shape.getD 1 0])

/-- Embedding of `Tensor::matrix_col_sum`: for each row, fold the row's entries
onto the element type's default value (`T::default()`, `0` for the
numeric instances). -/
def matrix_col_sum [Inhabited α] [Add α] (t : Tensor α) :
    Panic (Option (Tensor α)) :=
  if t.get_shape.length ≠ 2 then .ok none
  else
    let rows := t.get_shape.getD 0 0
    let cols := t.get_shape.getD 1 0
    match collectP (List.range rows) (fun row =>
      foldlP (fun value col =>
        Panic.bind (t.get_data.get? (row * cols + col)).unwrapP
          (fun x => .ok (value + x))) default (List.range cols)) with
    | .panicked => .panicked
    | .ok new_data => .ok (from_data new_data [rows, 1])

/-- Embedding of `Tensor::matrix_row_sum`: for each column, fold the column's
entries onto the default value. -/
def matrix_row_sum [Inhabited α] [Add α] (t : Tensor α) :
    Panic (Option (Tensor α)) :=
  if t.get_shape.length ≠ 2 then .ok none
  else
    let rows := t.get_shape.getD 0 0
    let cols := t.get_shape.getD 1 0
    match collectP (List.range cols) (fun col =>
      foldlP (fun value row =>
        Panic.bind (t.get_data.get? (row * cols + col)).unwrapP
          (fun x => .ok (value + x))) default (List.range rows)) with
    | .panicked => .panicked
    | .ok new_data => .ok (from_data new_data [1, cols])

/-- Embedding of `Tensor::matrix_col_prod`: for each row, seed the accumulator with
the row's first element (`data[row * cols]`, an out-of-bounds panic
when the row is empty) and multiply in the remaining entries
(`for col in 1..cols`). -/
def matrix_col_prod [Mul α] (t : Tensor α) : Panic (Option (Tensor α)) :=
  if t.get_shape.length ≠ 2 then .ok none
  else
    let rows := t.get_shape.getD 0 0
    let cols := t.get_shape.getD 1 0
    match collectP (List.range rows) (fun row =>
      Panic.bind (t.get_data.get? (row * cols)).unwrapP (fun seed =>
        foldlP (fun value col =>
          Panic.bind (t.get_data.get? (row * cols + col)).unwrapP
            (fun x => .ok (value * x))) seed (List.range' 1 (cols - 1)))) with
    | .panicked => .panicked
    | .ok new_data => .ok (from_data new_data [rows, 1])

/-- Embedding of `Tensor::matrix_row_prod`: for each column, seed the accumulator
with the column's first element (`data[col]`) and multiply in the
remaining entries (`for row in 1..rows`). -/
def matrix_row_prod [Mul α] (t : Tensor α) : Panic (Option (Tensor α)) :=
  if t.get_shape.length ≠ 2 then .ok none
  else
    let rows := t.get_shape.getD 0 0
    let cols := t.get_shape.getD 1 0
    match collectP (List.range cols) (fun col =>
      Panic.bind (t.get_data.get? col).unwrapP (fun seed =>
        foldlP (fun value row =>
          Panic.bind (t.get_data.get? (row * cols + col)).unwrapP
            (fun x => .ok (value * x))) seed (List.range' 1 (rows - 1)))) with
    | .panicked => .panicked
    | .ok new_data => .ok (from_data new_data [1, cols])

end Tensor

/-- The buffer produced by transposing an `r × c` row-major buffer:
output position `(j, i)` (row-major in the `[c, r]` shape, i.e. flat
position `j * r + i`) holds input element `(i, j)` (flat position
`i * c + j`). -/
def transposeData {α : Type} [Inhabited α] (d : List α) (r c : Nat) : List α :=
  ((List.range c).map (fun j =>
    (List.range r).map (fun i => d.getD (i * c + j) default))).flatten

/-- The row-of-rows buffer produced by a successful `matrix_mul` of an
`r1 × c1` matrix by a `c1 × c2` matrix: entry `(i, j)` is the dot
product of row `i` of `A` and the strided gather of column `j` of
`B`. -/
def mulData (A B : Tensor Int) (r1 c1 c2 : Nat) : List (List Int) :=
  (List.range r1).map (fun i => (List.range c2).map (fun j =>
    Tensor.dotList ((A.data.drop (i * c1)).take c1)
      (strideGatherAux B.data c2 (B.data.length + 1) j)))

/-! ## Loop and list lemmas -/

theorem collectP_ok {β γ : Type} {l : List β} {f : β → Panic γ} {g : β → γ}
    (h : ∀ x ∈ l, f x = .ok (g x)) : collectP l f = .ok (l.map g) := by
  induction l with
  | nil => rfl
  | cons a t ih =>
    simp only [collectP, h a (by simp), List.map_cons,
      ih (fun x hx => h x (by simp [hx]))]

theorem foldlP_ok {σ β : Type} {f : σ → β → Panic σ} {g : σ → β → σ}
    (l : List β) (h : ∀ s x, x ∈ l → f s x = .ok (g s x)) (s : σ) :
    foldlP f s l = .ok (l.foldl g s) := by
  induction l generalizing s with
  | nil => rfl
  | cons a t ih =>
    simp only [foldlP, h s a (by simp), List.foldl_cons]
    exact ih (fun s x hx => h s x (by simp [hx])) _

theorem get?_some_getD {α : Type} {l : List α} {n : Nat} (d : α)
    (h : n < l.length) : l.get? n = some (l.getD n d) := by
  rw [List.getD_eq_get?]
  cases hq : l.get? n with
  | none => exact absurd (List.get?_eq_none.mp hq) (Nat.not_le.mpr h)
  | some a => rfl

theorem length_eq_of_get? {α : Type} {l : List α} {n : Nat}
    (h1 : ∀ k, k < n → (l.get? k).isSome) (h2 : l.get? n = none) :
    l.length = n := by
  refine Nat.le_antisymm (List.get?_eq_none.mp h2) ?_
  by_contra hlt
  push_neg at hlt
  have hx := h1 l.length hlt
  rw [List.get?_eq_none.mpr (Nat.le_refl _)] at hx
  simp at hx

theorem flatten_get?_uniform {γ : Type} {L : List (List γ)} {r : Nat}
    (h : ∀ x ∈ L, x.length = r) (q i : Nat) (hi : i < r) :
    L.flatten.get? (q * r + i) = (L.get? q).bind (fun x => x.get? i) := by
  induction L generalizing q with
  | nil => simp
  | cons a t ih =>
    have ha : a.length = r := h a (by simp)
    cases q with
    | zero =>
      simp only [List.flatten_cons, Nat.zero_mul, Nat.zero_add]
      rw [List.get?_append (by rw [ha]; exact hi)]
      rfl
    | succ q' =>
      simp only [List.flatten_cons]
      rw [List.get?_append_right (by rw [ha]; calc
        r ≤ (q' + 1) * r := Nat.le_mul_of_pos_left r (Nat.succ_pos q')
        _ ≤ (q' + 1) * r + i := Nat.le_add_right _ _)]
      have harith : (q' + 1) * r + i - a.length = q' * r + i := by
        rw [ha, Nat.succ_mul]; omega
      rw [harith, ih (fun x hx => h x (by simp [hx])) q']
      rfl

theorem strideGatherAux_get? {α : Type} (data : List α) (step : Nat) :
    ∀ k fuel start, (strideGatherAux data step fuel start).get? k =
      if start + k * step < data.length ∧ k < fuel then
        data.get? (start + k * step)
      else none := by
  intro k
  induction k with
  | zero =>
    intro fuel start
    cases fuel with
    | zero => simp [strideGatherAux]
    | succ f =>
      simp only [strideGatherAux]
      cases hq : data.get? start with
      | none =>
        have hlen : data.length ≤ start := List.get?_eq_none.mp hq
        rw [if_neg (by omega)]
        rfl
      | some a =>
        have hlt : start < data.length := by
          by_contra hc
          rw [List.get?_eq_none.mpr (Nat.le_of_not_lt hc)] at hq
          cases hq
        rw [if_pos (by omega)]
        simpa using hq.symm
  | succ k ih =>
    intro fuel start
    cases fuel with
    | zero => simp [strideGatherAux]
    | succ f =>
      simp only [strideGatherAux]
      cases hq : data.get? start with
      | none =>
        have hlen : data.length ≤ start := List.get?_eq_none.mp hq
        rw [if_neg (by omega)]
        rfl
      | some a =>
        rw [List.get?_cons_succ, ih f (start + step)]
        have harith : start + step + k * step = start + (k + 1) * step := by
          rw [Nat.succ_mul]; ring
        rw [harith]
        by_cases hc : start + (k + 1) * step < data.length ∧ k < f
        · rw [if_pos hc, if_pos ⟨hc.1, Nat.succ_lt_succ hc.2⟩]
        · rw [if_neg hc,
            if_neg (fun hc2 => hc ⟨hc2.1, Nat.lt_of_succ_lt_succ hc2.2⟩)]

theorem mul_index_lt {i j r c : Nat} (hi : i < r) (hj : j < c) :
    i * c + j < r * c :=
  calc i * c + j < i * c + c := Nat.add_lt_add_left hj _
    _ = (i + 1) * c := (Nat.succ_mul i c).symm
    _ ≤ r * c := Nat.mul_le_mul_right c (Nat.succ_le_of_lt hi)

theorem Tensor.value_rank2 {α : Type} (t : Tensor α) (r c i j : Nat)
    (hs : t.shape = [r, c]) (hi : i < r) (hj : j < c) :
    t.value [i, j] = t.data.get? (i * c + j) := by
  unfold Tensor.value
  rw [if_pos]
  · congr 1
    simp only [Tensor.flatIndex, hs, List.zip, List.zipWith, List.foldl_cons,
      List.foldl_nil, Nat.zero_mul, Nat.zero_add]
  · exact ⟨by simp [hs], by simp [hs, hi, hj]⟩

/-! ## Row and column extractor specifications -/

theorem Tensor.matrix_row_spec {α : Type} (t : Tensor α) (r c i : Nat)
    (hs : t.shape = [r, c]) (hv : t.data.length = r * c) (hi : i < r) :
    t.matrix_row i = .ok (some ⟨(t.data.drop (i * c)).take c, [1, c]⟩) := by
  have hbound : i * c + c ≤ r * c := by
    calc i * c + c = (i + 1) * c := (Nat.succ_mul i c).symm
      _ ≤ r * c := Nat.mul_le_mul_right c (Nat.succ_le_of_lt hi)
  unfold Tensor.matrix_row
  rw [if_neg (by simp [Tensor.get_shape, hs]), if_neg (by simp [Tensor.get_shape, hs]; omega)]
  simp only [Tensor.get_shape, Tensor.get_data, hs]
  show (match rustSlice t.data (i * c) (i * c + c) with
    | none => Panic.panicked
    | some d => Panic.ok (Tensor.from_data d [1, c])) = _
  rw [show rustSlice t.data (i * c) (i * c + c)
      = some ((t.data.drop (i * c)).take c) by
    unfold rustSlice
    rw [if_pos ⟨Nat.le_add_right _ _, by omega⟩, Nat.add_sub_cancel_left]]
  show Panic.ok (Tensor.from_data ((t.data.drop (i * c)).take c) [1, c]) = _
  unfold Tensor.from_data
  rw [if_pos]
  simp only [List.length_take, List.length_drop, hv, List.prod_cons,
    List.prod_nil, Nat.one_mul, Nat.mul_one]
  omega

theorem strideGather_col_length {α : Type} (data : List α) (r c j : Nat)
    (hv : data.length = r * c) (hj : j < c) :
    (strideGatherAux data c (data.length + 1) j).length = r := by
  have hc : 0 < c := Nat.lt_of_le_of_lt (Nat.zero_le j) hj
  apply length_eq_of_get?
  · intro k hk
    rw [strideGatherAux_get? data c k (data.length + 1) j]
    have hlt : j + k * c < data.length := by
      rw [hv]
      calc j + k * c < c + k * c := by omega
        _ = (k + 1) * c := by rw [Nat.succ_mul]; ring
        _ ≤ r * c := Nat.mul_le_mul_right c (Nat.succ_le_of_lt hk)
    have hkfuel : k < data.length + 1 := by
      have hrc : r ≤ r * c := Nat.le_mul_of_pos_right r hc
      omega
    rw [if_pos ⟨hlt, hkfuel⟩, List.get?_eq_get hlt]
    rfl
  · rw [strideGatherAux_get? data c r (data.length + 1) j]
    rw [if_neg]
    intro hcontra
    have h1 := hcontra.1
    rw [hv] at h1
    omega

theorem strideGather_col_get? {α : Type} (data : List α) (r c j k : Nat)
    (hv : data.length = r * c) (hj : j < c) (hk : k < r) :
    (strideGatherAux data c (data.length + 1) j).get? k
      = data.get? (k * c + j) := by
  rw [strideGatherAux_get? data c k (data.length + 1) j]
  have hc : 0 < c := Nat.lt_of_le_of_lt (Nat.zero_le j) hj
  have hlt : j + k * c < data.length := by
    rw [hv]
    calc j + k * c < c + k * c := by omega
      _ = (k + 1) * c := by rw [Nat.succ_mul]; ring
      _ ≤ r * c := Nat.mul_le_mul_right c (Nat.succ_le_of_lt hk)
  have hkfuel : k < data.length + 1 := by
    have hrc : r ≤ r * c := Nat.le_mul_of_pos_right r hc
    omega
  rw [if_pos ⟨hlt, hkfuel⟩]
  congr 1
  omega

theorem Tensor.matrix_col_spec {α : Type} (t : Tensor α) (r c j : Nat)
    (hs : t.shape = [r, c]) (hv : t.data.length = r * c) (hj : j < c) :
    t.matrix_col j
      = .ok (some ⟨strideGatherAux t.data c (t.data.length + 1) j, [r, 1]⟩) := by
  have hc : 0 < c := Nat.lt_of_le_of_lt (Nat.zero_le j) hj
  have hlen : (strideGatherAux t.data c (t.data.length + 1) j).length = r :=
    strideGather_col_length t.data r c j hv hj
  unfold Tensor.matrix_col
  simp only [Tensor.get_shape, Tensor.get_data, hs, List.length_cons,
    List.length_nil, List.getD_cons_succ, List.getD_cons_zero]
  rw [if_neg (by omega), if_neg (by omega), if_neg (by omega)]
  unfold Tensor.from_data
  rw [if_pos (by simp [hlen, List.prod_cons])]

/-! ## Transpose specification -/

theorem transposeData_length {α : Type} [Inhabited α] (d : List α) (r c : Nat) :
    (transposeData d r c).length = c * r := by
  unfold transposeData
  rw [List.length_flatten, List.map_map]
  have hmap : (List.range c).map
      (List.length ∘ fun j => (List.range r).map (fun i => d.getD (i * c + j) default))
      = List.replicate c r := by
    rw [show (List.length ∘ fun j =>
        (List.range r).map (fun i => d.getD (i * c + j) default))
        = fun _ => r from funext (fun j => by simp)]
    rw [List.map_const', List.length_range]
  rw [hmap, List.sum_replicate, smul_eq_mul]

theorem transposeData_get? {α : Type} [Inhabited α] (d : List α) (r c i j : Nat)
    (hi : i < r) (hj : j < c) :
    (transposeData d r c).get? (j * r + i)
      = some (d.getD (i * c + j) default) := by
  unfold transposeData
  rw [flatten_get?_uniform (r := r) ?huniform j i hi]
  case huniform =>
    intro x hx
    simp only [List.mem_map] at hx
    obtain ⟨a, _, rfl⟩ := hx
    simp
  rw [List.get?_map, List.get?_range hj]
  show ((List.range r).map fun k => d.getD (k * c + j) default).get? i
    = some (d.getD (i * c + j) default)
  rw [List.get?_map, List.get?_range hi]
  rfl

theorem Tensor.matrix_transpose_spec {α : Type} [Inhabited α] (t : Tensor α)
    (r c : Nat) (hs : t.shape = [r, c]) (hv : t.data.length = r * c) :
    t.matrix_transpose = .ok (some ⟨transposeData t.data r c, [c, r]⟩) := by
  unfold Tensor.matrix_transpose
  simp only [Tensor.get_shape, hs, List.length_cons, List.length_nil,
    List.getD_cons_succ, List.getD_cons_zero]
  rw [if_neg (by omega)]
  have hinner : ∀ j, j < c → ∀ i ∈ List.range r,
      (t.value [i, j]).unwrapP = .ok (t.data.getD (i * c + j) default) := by
    intro j hj i hi
    rw [List.mem_range] at hi
    rw [Tensor.value_rank2 t r c i j hs hi hj,
      get?_some_getD default (by rw [hv]; exact mul_index_lt hi hj)]
    rfl
  have houter : ∀ j ∈ List.range c,
      collectP (List.range r) (fun i => (t.value [i, j]).unwrapP)
        = .ok ((List.range r).map (fun i => t.data.getD (i * c + j) default)) := by
    intro j hj
    rw [List.mem_range] at hj
    exact collectP_ok (hinner j hj)
  rw [collectP_ok houter]
  have hfd : Tensor.from_data (transposeData t.data r c) [c, r]
      = some ⟨transposeData t.data r c, [c, r]⟩ := by
    unfold Tensor.from_data
    rw [if_pos]
    rw [transposeData_length]
    simp [List.prod_cons]
  show (match (Tensor.from_data (transposeData t.data r c) [c, r]).unwrapP with
    | Panic.panicked => Panic.panicked
    | Panic.ok res => Panic.ok (some res))
    = Panic.ok (some ⟨transposeData t.data r c, [c, r]⟩)
  rw [hfd]
  rfl

theorem transposeData_transposeData {α : Type} [Inhabited α] (d : List α)
    (r c : Nat) (hv : d.length = r * c) :
    transposeData (transposeData d r c) c r = d := by
  apply List.ext
  intro n
  by_cases hn : n < r * c
  · have hc : 0 < c := by
      rcases Nat.eq_zero_or_pos c with h0 | h
      · subst h0; simp at hn
      · exact h
    have hj : n % c < c := Nat.mod_lt _ hc
    have hi : n / c < r := Nat.div_lt_iff_lt_mul hc |>.mpr hn
    have hn2 : n = (n / c) * c + n % c := by
      conv_lhs => rw [← Nat.div_add_mod n c]
      ring
    rw [hn2, transposeData_get? (transposeData d r c) c r (n % c) (n / c) hj hi]
    rw [List.getD_eq_get?,
      transposeData_get? d r c (n / c) (n % c) hi hj]
    rw [get?_some_getD default (l := d) (by rw [← hn2, hv]; exact hn)]
    rfl
  · have hL : (transposeData (transposeData d r c) c r).length = r * c :=
      transposeData_length (transposeData d r c) c r
    rw [List.get?_eq_none.mpr (by rw [hL]; omega),
      List.get?_eq_none.mpr (by rw [hv]; omega)]

/-! ## Matrix extractor and multiplication specifications -/

theorem flatten_map_map_length {γ : Type} (f : Nat → Nat → γ) (m n : Nat) :
    ((List.range m).map (fun i => (List.range n).map (f i))).flatten.length
      = m * n := by
  rw [List.length_flatten, List.map_map]
  have hmap : (List.range m).map
      (List.length ∘ fun i => (List.range n).map (f i))
      = List.replicate m n := by
    rw [show (List.length ∘ fun i => (List.range n).map (f i))
        = fun _ => n from funext (fun i => by simp)]
    rw [List.map_const', List.length_range]
  rw [hmap, List.sum_replicate, smul_eq_mul]

theorem Tensor.matrix_nil_spec {α : Type} (t : Tensor α) (r c : Nat)
    (hs : t.shape = [r, c]) (hv : t.data.length = r * c) :
    t.matrix [] = .ok (some t) := by
  unfold Tensor.matrix
  rw [if_neg (by simp [Tensor.get_shape, hs]), if_neg (by simp)]
  have hslice : rustSlice t.get_data 0 (0 + ([r, c] : List Nat).prod)
      = some t.data := by
    unfold rustSlice Tensor.get_data
    rw [if_pos ⟨Nat.zero_le _, by simp [List.prod_cons]; omega⟩]
    congr 1
    rw [List.drop_zero, Nat.zero_add, Nat.sub_zero]
    simp only [List.prod_cons, List.prod_nil, Nat.mul_one]
    rw [← hv, List.take_length]
  show (match rustSlice t.get_data 0
      (0 + (t.get_shape.drop (t.get_shape.length - 2)).prod) with
    | none => Panic.panicked
    | some d => Panic.ok (Tensor.from_data d
        (t.get_shape.drop (t.get_shape.length - 2))))
    = Panic.ok (some t)
  rw [show t.get_shape.drop (t.get_shape.length - 2) = [r, c] by
    simp [Tensor.get_shape, hs]]
  rw [hslice]
  show Panic.ok (Tensor.from_data t.data [r, c]) = Panic.ok (some t)
  unfold Tensor.from_data
  rw [if_pos (by simp [List.prod_cons, hv])]
  rw [← hs]

theorem Tensor.mulEntry_spec (A B : Tensor Int) (r1 c1 r2 c2 i j : Nat)
    (hsA : A.shape = [r1, c1]) (hsB : B.shape = [r2, c2])
    (hvA : A.data.length = r1 * c1) (hvB : B.data.length = r2 * c2)
    (hcompat : c1 = r2) (hi : i < r1) (hj : j < c2) :
    Tensor.mulEntry A B i j
      = .ok (Tensor.dotList ((A.data.drop (i * c1)).take c1)
          (strideGatherAux B.data c2 (B.data.length + 1) j)) := by
  unfold Tensor.mulEntry
  rw [Tensor.matrix_row_spec A r1 c1 i hsA hvA hi,
    Tensor.matrix_col_spec B r2 c2 j hsB hvB hj]
  show (Tensor.dot_product
      (Tensor.set_shape ⟨(A.data.drop (i * c1)).take c1, [1, c1]⟩
        [((A.data.drop (i * c1)).take c1).length])
      (Tensor.set_shape ⟨strideGatherAux B.data c2 (B.data.length + 1) j, [r2, 1]⟩
        [(strideGatherAux B.data c2 (B.data.length + 1) j).length])).unwrapP = _
  unfold Tensor.set_shape Tensor.dot_product
  rw [if_pos]
  · rfl
  · show ((A.data.drop (i * c1)).take c1).length
      = (strideGatherAux B.data c2 (B.data.length + 1) j).length
    rw [strideGather_col_length B.data r2 c2 j hvB hj,
      List.length_take, List.length_drop, hvA]
    have hbound : i * c1 + c1 ≤ r1 * c1 := by
      calc i * c1 + c1 = (i + 1) * c1 := (Nat.succ_mul i c1).symm
        _ ≤ r1 * c1 := Nat.mul_le_mul_right c1 (Nat.succ_le_of_lt hi)
    omega

theorem Tensor.matrix_mul_spec (A B : Tensor Int) (r1 c1 r2 c2 : Nat)
    (hsA : A.shape = [r1, c1]) (hsB : B.shape = [r2, c2])
    (hvA : A.data.length = r1 * c1) (hvB : B.data.length = r2 * c2)
    (hcompat : c1 = r2) :
    A.matrix_mul B
      = .ok (some ⟨(mulData A B r1 c1 c2).flatten, [r1, c2]⟩) := by
  unfold Tensor.matrix_mul
  simp only [Tensor.get_shape, hsA, hsB, List.length_cons, List.length_nil,
    List.getD_cons_succ, List.getD_cons_zero]
  rw [if_neg (by omega), if_neg (by omega), if_neg (by omega)]
  have hinner : ∀ i ∈ List.range r1,
      collectP (List.range c2) (fun j => Tensor.mulEntry A B i j)
        = .ok ((List.range c2).map (fun j =>
            Tensor.dotList ((A.data.drop (i * c1)).take c1)
              (strideGatherAux B.data c2 (B.data.length + 1) j))) := by
    intro i hi
    rw [List.mem_range] at hi
    exact collectP_ok (fun j hj =>
      Tensor.mulEntry_spec A B r1 c1 r2 c2 i j hsA hsB hvA hvB hcompat hi
        (List.mem_range.mp hj))
  rw [collectP_ok hinner]
  show Panic.ok (Tensor.from_data (mulData A B r1 c1 c2).flatten [r1, c2]) = _
  unfold Tensor.from_data
  rw [if_pos]
  show ((List.range r1).map fun i => (List.range c2).map fun j =>
      Tensor.dotList ((A.data.drop (i * c1)).take c1)
        (strideGatherAux B.data c2 (B.data.length + 1) j)).flatten.length = _
  rw [flatten_map_map_length (fun i j =>
    Tensor.dotList ((A.data.drop (i * c1)).take c1)
      (strideGatherAux B.data c2 (B.data.length + 1) j)) r1 c2]
  simp [List.prod_cons]

/-! ## Reduction specifications -/

theorem Tensor.matrix_col_sum_spec (t : Tensor Int) (r c : Nat)
    (hs : t.shape = [r, c]) (hv : t.data.length = r * c) :
    t.matrix_col_sum = .ok (some ⟨(List.range r).map (fun row =>
        (List.range c).foldl
          (fun acc col => acc + t.data.getD (row * c + col) 0) 0),
      [r, 1]⟩) := by
  unfold Tensor.matrix_col_sum
  simp only [Tensor.get_shape, Tensor.get_data, hs, List.length_cons,
    List.length_nil, List.getD_cons_succ, List.getD_cons_zero]
  rw [if_neg (by omega)]
  have hrow : ∀ row ∈ List.range r,
      foldlP (fun value col =>
        Panic.bind (t.data.get? (row * c + col)).unwrapP
          (fun x => .ok (value + x))) default (List.range c)
      = .ok ((List.range c).foldl
          (fun acc col => acc + t.data.getD (row * c + col) 0) 0) := by
    intro row hrow
    rw [List.mem_range] at hrow
    have hb : ∀ (s : Int) (col : Nat), col ∈ List.range c →
        Panic.bind (t.data.get? (row * c + col)).unwrapP
          (fun x => Panic.ok (s + x))
        = .ok (s + t.data.getD (row * c + col) 0) := by
      intro s col hcol
      rw [List.mem_range] at hcol
      rw [get?_some_getD (0 : Int) (by rw [hv]; exact mul_index_lt hrow hcol)]
      rfl
    exact (foldlP_ok (List.range c) hb default).trans rfl
  rw [collectP_ok hrow]
  show Panic.ok (Tensor.from_data ((List.range r).map fun row =>
    (List.range c).foldl
      (fun acc col => acc + t.data.getD (row * c + col) 0) 0) [r, 1]) = _
  unfold Tensor.from_data
  rw [if_pos (by simp [List.prod_cons])]

theorem Tensor.matrix_col_prod_spec (t : Tensor Int) (r c : Nat)
    (hs : t.shape = [r, c]) (hv : t.data.length = r * c) (hc : 1 ≤ c) :
    t.matrix_col_prod = .ok (some ⟨(List.range r).map (fun row =>
        (List.range' 1 (c - 1)).foldl
          (fun acc col => acc * t.data.getD (row * c + col) 0)
          (t.data.getD (row * c) 0)),
      [r, 1]⟩) := by
  unfold Tensor.matrix_col_prod
  simp only [Tensor.get_shape, Tensor.get_data, hs, List.length_cons,
    List.length_nil, List.getD_cons_succ, List.getD_cons_zero]
  rw [if_neg (by omega)]
  have hrow : ∀ row ∈ List.range r,
      Panic.bind (t.data.get? (row * c)).unwrapP (fun seed =>
        foldlP (fun value col =>
          Panic.bind (t.data.get? (row * c + col)).unwrapP
            (fun x => .ok (value * x))) seed (List.range' 1 (c - 1)))
      = .ok ((List.range' 1 (c - 1)).foldl
          (fun acc col => acc * t.data.getD (row * c + col) 0)
          (t.data.getD (row * c) 0)) := by
    intro row hrow
    rw [List.mem_range] at hrow
    have hseed : row * c < t.data.length := by
      rw [hv]
      calc row * c < row * c + c := by omega
        _ = (row + 1) * c := (Nat.succ_mul row c).symm
        _ ≤ r * c := Nat.mul_le_mul_right c (Nat.succ_le_of_lt hrow)
    rw [get?_some_getD (0 : Int) hseed]
    have hb : ∀ (s : Int) (col : Nat), col ∈ List.range' 1 (c - 1) →
        Panic.bind (t.data.get? (row * c + col)).unwrapP
          (fun x => Panic.ok (s * x))
        = .ok (s * t.data.getD (row * c + col) 0) := by
      intro s col hcol
      rw [List.mem_range'_1] at hcol
      have hcolc : col < c := by omega
      rw [get?_some_getD (0 : Int) (by rw [hv]; exact mul_index_lt hrow hcolc)]
      rfl
    exact (foldlP_ok (List.range' 1 (c - 1)) hb _).trans rfl
  rw [collectP_ok hrow]
  show Panic.ok (Tensor.from_data ((List.range r).map fun row =>
    (List.range' 1 (c - 1)).foldl
      (fun acc col => acc * t.data.getD (row * c + col) 0)
      (t.data.getD (row * c) 0)) [r, 1]) = _
  unfold Tensor.from_data
  rw [if_pos (by simp [List.prod_cons])]

theorem Tensor.matrix_row_prod_spec (t : Tensor Int) (r c : Nat)
    (hs : t.shape = [r, c]) (hv : t.data.length = r * c) (hr : 1 ≤ r) :
    t.matrix_row_prod = .ok (some ⟨(List.range c).map (fun col =>
        (List.range' 1 (r - 1)).foldl
          (fun acc row => acc * t.data.getD (row * c + col) 0)
          (t.data.getD col 0)),
      [1, c]⟩) := by
  unfold Tensor.matrix_row_prod
  simp only [Tensor.get_shape, Tensor.get_data, hs, List.length_cons,
    List.length_nil, List.getD_cons_succ, List.getD_cons_zero]
  rw [if_neg (by omega)]
  have hcol : ∀ col ∈ List.range c,
      Panic.bind (t.data.get? col).unwrapP (fun seed =>
        foldlP (fun value row =>
          Panic.bind (t.data.get? (row * c + col)).unwrapP
            (fun x => .ok (value * x))) seed (List.range' 1 (r - 1)))
      = .ok ((List.range' 1 (r - 1)).foldl
          (fun acc row => acc * t.data.getD (row * c + col) 0)
          (t.data.getD col 0)) := by
    intro col hcol
    rw [List.mem_range] at hcol
    have hseed : col < t.data.length := by
      rw [hv]
      have hcr : c ≤ r * c := Nat.le_mul_of_pos_left c hr
      omega
    rw [get?_some_getD (0 : Int) hseed]
    have hb : ∀ (s : Int) (row : Nat), row ∈ List.range' 1 (r - 1) →
        Panic.bind (t.data.get? (row * c + col)).unwrapP
          (fun x => Panic.ok (s * x))
        = .ok (s * t.data.getD (row * c + col) 0) := by
      intro s row hrow
      rw [List.mem_range'_1] at hrow
      have hrowr : row < r := by omega
      rw [get?_some_getD (0 : Int) (by rw [hv]; exact mul_index_lt hrowr hcol)]
      rfl
    exact (foldlP_ok (List.range' 1 (r - 1)) hb _).trans rfl
  rw [collectP_ok hcol]
  show Panic.ok (Tensor.from_data ((List.range c).map fun col =>
    (List.range' 1 (r - 1)).foldl
      (fun acc row => acc * t.data.getD (row * c + col) 0)
      (t.data.getD col 0)) [1, c]) = _
  unfold Tensor.from_data
  rw [if_pos (by simp [List.prod_cons])]

/-! ## Claim theorems -/

/-- Claim C1 (refuted; code bug witness): on data `[1,…,8]` with shape
`[2,2,2]`, `matrix(&[0])` does return data `[1,2,3,4]` with shape
`[2,2]`, but `matrix(&[1])` returns data `[3,4,5,6]` — the offset
computation multiplies the selector by `shape[1]` instead of
`shape[1] * shape[2]` — not the trailing slab `[5,6,7,8]` required by
the claim and the row-major data model. -/
theorem claim_C1 :
    Tensor.matrix ⟨([1,2,3,4,5,6,7,8] : List Int), [2,2,2]⟩ [0]
        = Panic.ok (some ⟨[1,2,3,4], [2,2]⟩)
    ∧ Tensor.matrix ⟨([1,2,3,4,5,6,7,8] : List Int), [2,2,2]⟩ [1]
        = Panic.ok (some ⟨[3,4,5,6], [2,2]⟩) := by
  constructor <;> decide

/-- Claim C2 (refuted; code bug witness): the claim says no operation
panics on a validly constructed tensor, in particular on rank-2
tensors with a zero dimension such as `[1,0]` or `[0,2]`.  But
`matrix_col_prod` on the (valid, `0 = 1 * 0`) tensor of shape `[1,0]`
seeds its accumulator with `data[0 * 0]` of an empty buffer and
panics, and `matrix_row_prod` on shape `[0,2]` panics the same way. -/
theorem claim_C2 :
    Tensor.matrix_col_prod ⟨([] : List Int), [1, 0]⟩ = Panic.panicked
    ∧ Tensor.matrix_row_prod ⟨([] : List Int), [0, 2]⟩ = Panic.panicked := by
  constructor <;> decide

/-- Claim C3 (confirmed): multiplying data `[1,…,6]` shaped `[3,2]` by
the same data shaped `[2,3]` yields data
`[9,12,15,19,26,33,29,40,51]` with shape `[3,3]`.  (The `f32`
arithmetic of the source is exact at these small integers, so the
integer model coincides with it.) -/
theorem claim_C3 :
    Tensor.matrix_mul ⟨([1,2,3,4,5,6] : List Int), [3,2]⟩
        ⟨([1,2,3,4,5,6] : List Int), [2,3]⟩
      = Panic.ok (some ⟨[9,12,15,19,26,33,29,40,51], [3,3]⟩) := by
  decide

/-- Claim C6 (refuted; code bug witness): the claim says `matrix`
returns `None` exactly when the rank/selector-length combination or a
selector bound fails, and otherwise returns a tensor.  On the valid
tensor of shape `[1,10,1,1]` with selector `[0,9]` every condition for
success holds, yet the buggy stride arithmetic computes
`data_begin = 9 * shape[1] = 90` and the slice `data[90..91]` of a
10-element buffer panics instead of returning a tensor. -/
theorem claim_C6 :
    Tensor.matrix ⟨([1,2,3,4,5,6,7,8,9,10] : List Int), [1,10,1,1]⟩ [0, 9]
      = Panic.panicked := by
  decide

/-- Claim C9 (confirmed): `matrix_to_string` on data `[1,2,3,4]` with
shape `[2,2]` yields exactly the string with bar-bracketed rows,
comma-space separated values, a newline between rows, and no trailing
separator. -/
theorem claim_C9 :
    Tensor.matrix_to_string ⟨([1,2,3,4] : List Int), [2,2]⟩
      = Panic.ok (some "|1, 2|\n|3, 4|") := by
  decide

/-- Claim C4 (confirmed): for every rank-2 tensor with shape `[r, c]`,
`matrix_transpose` returns a tensor with the reversed shape `[c, r]`
whose element `(j, i)` equals the input's element `(i, j)`, and
transposing twice returns a tensor with the original data and shape. -/
theorem claim_C4 {α : Type} [Inhabited α] (t : Tensor α) (r c : Nat)
    (hs : t.shape = [r, c]) (hv : t.data.length = r * c) :
    ∃ T, t.matrix_transpose = Panic.ok (some T) ∧ T.shape = [c, r]
      ∧ (∀ i j, i < r → j < c → T.value [j, i] = t.value [i, j])
      ∧ ∃ U, T.matrix_transpose = Panic.ok (some U)
          ∧ U.data = t.data ∧ U.shape = t.shape := by
  refine ⟨⟨transposeData t.data r c, [c, r]⟩,
    Tensor.matrix_transpose_spec t r c hs hv, rfl, ?_, ?_⟩
  · intro i j hi hj
    rw [Tensor.value_rank2 ⟨transposeData t.data r c, [c, r]⟩ c r j i rfl hj hi]
    show (transposeData t.data r c).get? (j * r + i) = _
    rw [transposeData_get? t.data r c i j hi hj,
      Tensor.value_rank2 t r c i j hs hi hj,
      get?_some_getD default (by rw [hv]; exact mul_index_lt hi hj)]
  · refine ⟨⟨transposeData (transposeData t.data r c) c r, [r, c]⟩, ?_, ?_, ?_⟩
    · exact Tensor.matrix_transpose_spec _ c r rfl
        (transposeData_length t.data r c)
    · exact transposeData_transposeData t.data r c hv
    · rw [hs]

/-- Witness for C4 at data `[1,…,6]`, shape `[2,3]`. -/
theorem claim_C4_witness :
    (⟨[1,2,3,4,5,6], [2,3]⟩ : Tensor Int).shape = [2, 3]
    ∧ (⟨[1,2,3,4,5,6], [2,3]⟩ : Tensor Int).data.length = 2 * 3
    ∧ ∃ T, (⟨[1,2,3,4,5,6], [2,3]⟩ : Tensor Int).matrix_transpose
          = Panic.ok (some T)
        ∧ T.shape = [3, 2]
        ∧ (∀ i j, i < 2 → j < 3 → T.value [j, i]
            = (⟨[1,2,3,4,5,6], [2,3]⟩ : Tensor Int).value [i, j])
        ∧ ∃ U, T.matrix_transpose = Panic.ok (some U)
            ∧ U.data = (⟨[1,2,3,4,5,6], [2,3]⟩ : Tensor Int).data
            ∧ U.shape = (⟨[1,2,3,4,5,6], [2,3]⟩ : Tensor Int).shape :=
  ⟨rfl, rfl, claim_C4 (⟨[1,2,3,4,5,6], [2,3]⟩ : Tensor Int) 2 3 rfl rfl⟩

/-- Claim C5 (confirmed): for valid rank-2 operands, `matrix_mul A B`
returns a tensor if and only if `A.shape[1] = B.shape[0]`, and every
returned tensor has shape `[A.shape[0], B.shape[1]]`; for operands
that are not both rank 2 it returns `None`. -/
theorem claim_C5 (A B : Tensor Int)
    (hvA : A.data.length = A.shape.prod) (hvB : B.data.length = B.shape.prod) :
    (¬(A.shape.length = 2 ∧ B.shape.length = 2) → A.matrix_mul B = .ok none)
    ∧ ∀ r1 c1 r2 c2, A.shape = [r1, c1] → B.shape = [r2, c2] →
        (((∃ C, A.matrix_mul B = .ok (some C)) ↔ c1 = r2)
          ∧ ∀ C, A.matrix_mul B = .ok (some C) → C.shape = [r1, c2]) := by
  constructor
  · intro hnot
    unfold Tensor.matrix_mul
    by_cases hA : A.get_shape.length = 2
    · have hB : B.get_shape.length ≠ 2 := by
        simp only [Tensor.get_shape] at hA ⊢
        intro h
        exact hnot ⟨hA, h⟩
      rw [if_neg (not_not_intro hA),
        if_pos (by rw [hA]; exact fun h => hB h.symm)]
    · rw [if_pos hA]
  · intro r1 c1 r2 c2 hsA hsB
    have hvA2 : A.data.length = r1 * c1 := by
      rw [hvA, hsA]; simp [List.prod_cons]
    have hvB2 : B.data.length = r2 * c2 := by
      rw [hvB, hsB]; simp [List.prod_cons]
    have hnone : c1 ≠ r2 → A.matrix_mul B = .ok none := by
      intro hne
      unfold Tensor.matrix_mul
      simp only [Tensor.get_shape, hsA, hsB, List.length_cons, List.length_nil,
        List.getD_cons_succ, List.getD_cons_zero]
      rw [if_neg (by omega), if_neg (by omega), if_pos hne]
    refine ⟨⟨?_, ?_⟩, ?_⟩
    · rintro ⟨C, hC⟩
      by_contra hne
      rw [hnone hne] at hC
      simp at hC
    · intro hcompat
      exact ⟨_, Tensor.matrix_mul_spec A B r1 c1 r2 c2 hsA hsB hvA2 hvB2 hcompat⟩
    · intro C hC
      by_cases hcompat : c1 = r2
      · have hspec := Tensor.matrix_mul_spec A B r1 c1 r2 c2 hsA hsB hvA2 hvB2 hcompat
        rw [hspec] at hC
        have heq : (⟨(mulData A B r1 c1 c2).flatten, [r1, c2]⟩ : Tensor Int) = C := by
          simpa using hC
        rw [← heq]
      · rw [hnone hcompat] at hC
        simp at hC

/-- Witness for C5 at the `[3,2]`-by-`[2,3]` pair of the concrete
scenario. -/
theorem claim_C5_witness :
    (⟨[1,2,3,4,5,6], [3,2]⟩ : Tensor Int).data.length
        = (⟨[1,2,3,4,5,6], [3,2]⟩ : Tensor Int).shape.prod
    ∧ (⟨[1,2,3,4,5,6], [2,3]⟩ : Tensor Int).data.length
        = (⟨[1,2,3,4,5,6], [2,3]⟩ : Tensor Int).shape.prod
    ∧ ((¬((⟨[1,2,3,4,5,6], [3,2]⟩ : Tensor Int).shape.length = 2
          ∧ (⟨[1,2,3,4,5,6], [2,3]⟩ : Tensor Int).shape.length = 2) →
        Tensor.matrix_mul ⟨[1,2,3,4,5,6], [3,2]⟩ ⟨[1,2,3,4,5,6], [2,3]⟩
          = .ok none)
      ∧ ∀ r1 c1 r2 c2,
          (⟨[1,2,3,4,5,6], [3,2]⟩ : Tensor Int).shape = [r1, c1] →
          (⟨[1,2,3,4,5,6], [2,3]⟩ : Tensor Int).shape = [r2, c2] →
          (((∃ C, Tensor.matrix_mul ⟨[1,2,3,4,5,6], [3,2]⟩
                ⟨[1,2,3,4,5,6], [2,3]⟩ = .ok (some C)) ↔ c1 = r2)
            ∧ ∀ C, Tensor.matrix_mul ⟨[1,2,3,4,5,6], [3,2]⟩
                ⟨[1,2,3,4,5,6], [2,3]⟩ = .ok (some C) → C.shape = [r1, c2])) :=
  ⟨rfl, rfl, claim_C5 ⟨[1,2,3,4,5,6], [3,2]⟩ ⟨[1,2,3,4,5,6], [2,3]⟩ rfl rfl⟩

/-- Claim C7 (confirmed): for every valid rank-2 tensor with shape
`[r, c]`, `matrix_row i` (for `i < r`) returns the `i`-th contiguous
`c`-element block of the data with shape `[1, c]`, and `matrix_col j`
(for `j < c`) returns a tensor of shape `[r, 1]` whose `k`-th element
is the input's element at `(k, j)`. -/
theorem claim_C7 {α : Type} (t : Tensor α) (r c : Nat)
    (hs : t.shape = [r, c]) (hv : t.data.length = r * c) :
    (∀ i, i < r → t.matrix_row i
        = Panic.ok (some ⟨(t.data.drop (i * c)).take c, [1, c]⟩))
    ∧ (∀ j, j < c → ∃ C, t.matrix_col j = Panic.ok (some C)
        ∧ C.shape = [r, 1]
        ∧ ∀ k, k < r → C.data.get? k = t.value [k, j]) := by
  constructor
  · intro i hi
    exact Tensor.matrix_row_spec t r c i hs hv hi
  · intro j hj
    refine ⟨⟨strideGatherAux t.data c (t.data.length + 1) j, [r, 1]⟩,
      Tensor.matrix_col_spec t r c j hs hv hj, rfl, ?_⟩
    intro k hk
    show (strideGatherAux t.data c (t.data.length + 1) j).get? k = _
    rw [strideGather_col_get? t.data r c j k hv hj hk,
      Tensor.value_rank2 t r c k j hs hk hj]

/-- Witness for C7 at data `[1,2,3,4]`, shape `[2,2]`. -/
theorem claim_C7_witness :
    (⟨[1,2,3,4], [2,2]⟩ : Tensor Int).shape = [2, 2]
    ∧ (⟨[1,2,3,4], [2,2]⟩ : Tensor Int).data.length = 2 * 2
    ∧ ((∀ i, i < 2 → (⟨[1,2,3,4], [2,2]⟩ : Tensor Int).matrix_row i
          = Panic.ok (some ⟨((⟨[1,2,3,4], [2,2]⟩ : Tensor Int).data.drop (i * 2)).take 2,
              [1, 2]⟩))
      ∧ (∀ j, j < 2 → ∃ C,
          (⟨[1,2,3,4], [2,2]⟩ : Tensor Int).matrix_col j = Panic.ok (some C)
          ∧ C.shape = [2, 1]
          ∧ ∀ k, k < 2 → C.data.get? k
              = (⟨[1,2,3,4], [2,2]⟩ : Tensor Int).value [k, j])) :=
  ⟨rfl, rfl, claim_C7 (⟨[1,2,3,4], [2,2]⟩ : Tensor Int) 2 2 rfl rfl⟩

/-- Claim C8 (confirmed): on a valid rank-2 tensor with shape
`[rows, cols]`, `matrix_col_sum` returns shape `[rows, 1]` with entry
`k` the fold of row `k`'s entries onto the additive default `0`,
while `matrix_col_prod` (and `matrix_row_prod` with the roles of rows
and columns swapped) seeds its accumulator with the first element of
the row (respectively column) itself — `data[k * cols]`
(resp. `data[k]`) — and multiplies in the remaining entries.  The
product parts are stated for a nonempty row (resp. column), the only
case in which "the first element" exists; on a zero dimension the code
panics (see C2). -/
theorem claim_C8 (t : Tensor Int) (rows cols : Nat)
    (hs : t.shape = [rows, cols]) (hv : t.data.length = rows * cols) :
    (∃ S, t.matrix_col_sum = Panic.ok (some S) ∧ S.shape = [rows, 1]
      ∧ ∀ k, k < rows → S.data.get? k
          = some ((List.range cols).foldl
              (fun acc col => acc + t.data.getD (k * cols + col) 0) 0))
    ∧ (1 ≤ cols → ∃ P, t.matrix_col_prod = Panic.ok (some P)
        ∧ P.shape = [rows, 1]
        ∧ ∀ k, k < rows → P.data.get? k
            = some ((List.range' 1 (cols - 1)).foldl
                (fun acc col => acc * t.data.getD (k * cols + col) 0)
                (t.data.getD (k * cols) 0)))
    ∧ (1 ≤ rows → ∃ Q, t.matrix_row_prod = Panic.ok (some Q)
        ∧ Q.shape = [1, cols]
        ∧ ∀ k, k < cols → Q.data.get? k
            = some ((List.range' 1 (rows - 1)).foldl
                (fun acc row => acc * t.data.getD (row * cols + k) 0)
                (t.data.getD k 0))) := by
  refine ⟨⟨_, Tensor.matrix_col_sum_spec t rows cols hs hv, rfl, ?_⟩,
    fun hc => ⟨_, Tensor.matrix_col_prod_spec t rows cols hs hv hc, rfl, ?_⟩,
    fun hr => ⟨_, Tensor.matrix_row_prod_spec t rows cols hs hv hr, rfl, ?_⟩⟩
  · intro k hk
    show ((List.range rows).map (fun row =>
      (List.range cols).foldl
        (fun acc col => acc + t.data.getD (row * cols + col) 0) 0)).get? k = _
    rw [List.get?_map, List.get?_range hk]
    rfl
  · intro k hk
    show ((List.range rows).map (fun row =>
      (List.range' 1 (cols - 1)).foldl
        (fun acc col => acc * t.data.getD (row * cols + col) 0)
        (t.data.getD (row * cols) 0))).get? k = _
    rw [List.get?_map, List.get?_range hk]
    rfl
  · intro k hk
    show ((List.range cols).map (fun col =>
      (List.range' 1 (rows - 1)).foldl
        (fun acc row => acc * t.data.getD (row * cols + col) 0)
        (t.data.getD col 0))).get? k = _
    rw [List.get?_map, List.get?_range hk]
    rfl

/-- Witness for C8 at data `[1,…,6]`, shape `[3,2]` (the shapes and
entries match the crate's own doc tests: sums `[3,7,11]`, products
`[2,12,30]` and `[15,48]`). -/
theorem claim_C8_witness :
    (⟨[1,2,3,4,5,6], [3,2]⟩ : Tensor Int).shape = [3, 2]
    ∧ (⟨[1,2,3,4,5,6], [3,2]⟩ : Tensor Int).data.length = 3 * 2
    ∧ ((∃ S, (⟨[1,2,3,4,5,6], [3,2]⟩ : Tensor Int).matrix_col_sum
          = Panic.ok (some S) ∧ S.shape = [3, 1]
        ∧ ∀ k, k < 3 → S.data.get? k
            = some ((List.range 2).foldl
                (fun acc col =>
                  acc + (⟨[1,2,3,4,5,6], [3,2]⟩ : Tensor Int).data.getD
                    (k * 2 + col) 0) 0))
      ∧ (1 ≤ 2 → ∃ P, (⟨[1,2,3,4,5,6], [3,2]⟩ : Tensor Int).matrix_col_prod
          = Panic.ok (some P) ∧ P.shape = [3, 1]
        ∧ ∀ k, k < 3 → P.data.get? k
            = some ((List.range' 1 (2 - 1)).foldl
                (fun acc col =>
                  acc * (⟨[1,2,3,4,5,6], [3,2]⟩ : Tensor Int).data.getD
                    (k * 2 + col) 0)
                ((⟨[1,2,3,4,5,6], [3,2]⟩ : Tensor Int).data.getD (k * 2) 0)))
      ∧ (1 ≤ 3 → ∃ Q, (⟨[1,2,3,4,5,6], [3,2]⟩ : Tensor Int).matrix_row_prod
          = Panic.ok (some Q) ∧ Q.shape = [1, 2]
        ∧ ∀ k, k < 2 → Q.data.get? k
            = some ((List.range' 1 (3 - 1)).foldl
                (fun acc row =>
                  acc * (⟨[1,2,3,4,5,6], [3,2]⟩ : Tensor Int).data.getD
                    (row * 2 + k) 0)
                ((⟨[1,2,3,4,5,6], [3,2]⟩ : Tensor Int).data.getD k 0)))) :=
  ⟨rfl, rfl, claim_C8 (⟨[1,2,3,4,5,6], [3,2]⟩ : Tensor Int) 3 2 rfl rfl⟩

/-- Claim C10 (confirmed): on every valid rank-2 tensor, `matrix` with
the empty selector returns a tensor whose data and shape both equal
the receiver's — a full copy. -/
theorem claim_C10 {α : Type} (t : Tensor α)
    (hrank : t.shape.length = 2) (hv : t.data.length = t.shape.prod) :
    ∃ U, t.matrix [] = Panic.ok (some U)
      ∧ U.data = t.data ∧ U.shape = t.shape := by
  obtain ⟨r, c, hs⟩ := List.length_eq_two.mp hrank
  have hv2 : t.data.length = r * c := by
    rw [hv, hs]; simp [List.prod_cons]
  exact ⟨t, Tensor.matrix_nil_spec t r c hs hv2, rfl, rfl⟩

/-- Witness for C10 at data `[1,2,3,4]`, shape `[2,2]`. -/
theorem claim_C10_witness :
    (⟨[1,2,3,4], [2,2]⟩ : Tensor Int).shape.length = 2
    ∧ (⟨[1,2,3,4], [2,2]⟩ : Tensor Int).data.length
        = (⟨[1,2,3,4], [2,2]⟩ : Tensor Int).shape.prod
    ∧ ∃ U, (⟨[1,2,3,4], [2,2]⟩ : Tensor Int).matrix [] = Panic.ok (some U)
        ∧ U.data = (⟨[1,2,3,4], [2,2]⟩ : Tensor Int).data
        ∧ U.shape = (⟨[1,2,3,4], [2,2]⟩ : Tensor Int).shape :=
  ⟨rfl, rfl, claim_C10 (⟨[1,2,3,4], [2,2]⟩ : Tensor Int) rfl rfl⟩
